import Mathlib

/-!
Verification of `release_tools/bump_version.py`, a helper script that bumps a
project's version number across several text files, synchronises it with
milestone identifiers, and patches a changelog.

The Python source is shallowly embedded: strings are `List Char`, PEP 440
versions (from the external `packaging.version` library) are the `Version`
structure below together with the comparison key `vkey`, fallible code returns
`Except BumpErr`, and the file-system side effects of the CLI entry point are
modelled by explicit state passing (`BumpState`).
-/

/-- A parsed PEP 440 version, as produced by `packaging.version.Version`.
`release` is the tuple of numeric release components (trailing zeros kept, as
in `Version.release`); `pre` is the optional pre-release marker as
(phase, number) with phase `0 = a`, `1 = b`, `2 = rc`; `post` and `dev` are the
optional post-release and dev-release numbers; `localSeg` is the local version label as a
list of numeric or alphanumeric segments (empty list = no local label). -/
structure Version where
  epoch : Nat
  release : List Nat
  pre : Option (Nat × Nat)
  post : Option Nat
  dev : Option Nat
  localSeg : List (Nat ⊕ String)
  deriving DecidableEq, Repr

/-- `packaging.version`: a version is a development release iff it has a
`dev` segment. -/
def Version.is_devrelease (v : Version) : Bool :=
  v.dev.isSome

/-- `packaging.version`: a version is a pre-release iff it has a `dev`
segment or a pre-release segment. -/
def Version.is_prerelease (v : Version) : Bool :=
  v.dev.isSome || v.pre.isSome

/-- Release components with trailing zeros removed, as in the comparison key
of `packaging.version` (`_cmpkey`). -/
def dropTrailingZeros (l : List Nat) : List Nat :=
  (l.reverse.dropWhile (fun x => x = 0)).reverse

/-- Key for the pre-release marker: dev-only releases sort below everything
(tag 0), an explicit pre-release marker sorts by (phase, number) (tag 1), and
a version without pre-release marker sorts above all pre-releases (tag 2). -/
def preKey (v : Version) : Nat ×ₗ (Nat ×ₗ Nat) :=
  match v.pre, v.post, v.dev with
  | none, none, some _ => toLex (0, toLex (0, 0))
  | none, _, _ => toLex (2, toLex (0, 0))
  | some (ph, n), _, _ => toLex (1, toLex (ph, n))

/-- Key for the post-release marker: absent sorts first. -/
def postKey (v : Version) : Nat ×ₗ Nat :=
  match v.post with
  | none => toLex (0, 0)
  | some n => toLex (1, n)

/-- Key for the dev-release marker: absent sorts last. -/
def devKey (v : Version) : Nat ×ₗ Nat :=
  match v.dev with
  | none => toLex (1, 0)
  | some n => toLex (0, n)

/-- Key for one local version segment: string segments sort below numeric
segments, as in `packaging.version`. -/
def localPartKey : Nat ⊕ String → Nat ×ₗ (Nat ×ₗ String)
  | Sum.inl n => toLex (1, toLex (n, ""))
  | Sum.inr s => toLex (0, toLex (0, s))

/-- Key for the local version label: absent sorts first. -/
def localKey (v : Version) : Nat ×ₗ List (Nat ×ₗ (Nat ×ₗ String)) :=
  match v.localSeg with
  | [] => toLex (0, [])
  | segs => toLex (1, segs.map localPartKey)

/-- The total comparison key of a version, mirroring `_cmpkey` in
`packaging.version`: epoch, then release components (trailing zeros dropped,
compared lexicographically), then pre-, post-, dev- and local markers. -/
def vkey (v : Version) :
    Nat ×ₗ (List Nat ×ₗ ((Nat ×ₗ (Nat ×ₗ Nat)) ×ₗ ((Nat ×ₗ Nat) ×ₗ
      ((Nat ×ₗ Nat) ×ₗ (Nat ×ₗ List (Nat ×ₗ (Nat ×ₗ String))))))) :=
  toLex (v.epoch, toLex (dropTrailingZeros v.release, toLex (preKey v,
    toLex (postKey v, toLex (devKey v, localKey v)))))

/-- Python `Version.__lt__`: comparison of the keys. -/
def vlt (a b : Version) : Prop :=
  vkey a < vkey b

/-- Python `Version.__le__`: comparison of the keys. -/
def vle (a b : Version) : Prop :=
  vkey a ≤ vkey b

/-- Python `Version.__eq__`: equality of the keys. -/
def veq (a b : Version) : Prop :=
  vkey a = vkey b

instance (a b : Version) : Decidable (vlt a b) :=
  inferInstanceAs (Decidable (vkey a < vkey b))

instance (a b : Version) : Decidable (vle a b) :=
  inferInstanceAs (Decidable (vkey a ≤ vkey b))

instance (a b : Version) : Decidable (veq a b) :=
  inferInstanceAs (Decidable (vkey a = vkey b))

/-- Boolean form of `vle`, used as the comparison passed to the sort in
`get_next_milestone_version` (Python's `sorted` on versions). -/
def vleB (a b : Version) : Bool :=
  decide (vle a b)

/-- Boolean form of `vlt` (Python `milestone_version > version`). -/
def vltB (a b : Version) : Bool :=
  decide (vlt a b)

/-- A version with only three release components and no markers, such as the
ones built by `Version(f"{major + 1}.0.0")` in `get_next_version`. -/
def bareVersion (major minor micro : Nat) : Version :=
  ⟨0, [major, minor, micro], none, none, none, []⟩

/-- Errors raised by the script.  `noMatch` is the script's own `NoMatch`
exception; the others stand for the built-in Python exceptions of the same
name.  `unsupported` is a modelling boundary: it is returned when a regex
pattern uses a construct outside the fragment modelled here (the fragment
covers everything the claims exercise). -/
inductive BumpErr
  | noMatch
  | keyError
  | indexError
  | valueError
  | runtimeError
  | typeError
  | fileNotFound
  | unsupported
  deriving DecidableEq, Repr

instance {ε α : Type} [DecidableEq ε] [DecidableEq α] :
    DecidableEq (Except ε α) := fun a b =>
  match a, b with
  | Except.ok x, Except.ok y =>
    if h : x = y then isTrue (by rw [h]) else
      isFalse (fun hc => h (by cases hc; rfl))
  | Except.ok _, Except.error _ => isFalse (fun hc => Except.noConfusion hc)
  | Except.error _, Except.ok _ => isFalse (fun hc => Except.noConfusion hc)
  | Except.error x, Except.error y =>
    if h : x = y then isTrue (by rw [h]) else
      isFalse (fun hc => h (by cases hc; rfl))

/-- `get_next_version` (bump_version.py lines 231-249).  The unpacking
`major, minor, micro = current_version.release` raises `ValueError` unless the
release tuple has exactly three components; this is modelled by the
`Except`. -/
def get_next_version (current_version : Version)
    (increment_major increment_minor : Bool) : Except BumpErr Version :=
  match current_version.release with
  | [major, minor, micro] =>
    if increment_major then
      Except.ok (bareVersion (major + 1) 0 0)
    else if increment_minor then
      Except.ok (bareVersion major (minor + 1) 0)
    else if current_version.is_devrelease || current_version.is_prerelease then
      Except.ok current_version
    else
      Except.ok (bareVersion major minor (micro + 1))
  | _ => Except.error BumpErr.valueError

instance : IsTotal Version vle :=
  ⟨fun a b => le_total (vkey a) (vkey b)⟩

instance : IsTrans Version vle :=
  ⟨fun _ _ _ hab hbc => le_trans hab hbc⟩

/-- `get_next_milestone_version` (bump_version.py lines 93-107).  The Python
dictionary `milestone_numbers` is modelled as an association list; the loop
`for milestone_version in sorted(milestone_numbers)` scans the keys in
ascending version order and returns the first one strictly greater than
`version`; `RuntimeError` is raised when none exists.  Python's `sorted` is a
stable sort by `Version.__lt__`; it is modelled by insertion sort with the
version order, which produces the same list on keys of a dictionary (no two
of which compare equal). -/
def get_next_milestone_version (version : Version)
    (milestone_numbers : List (Version × String)) : Except BumpErr Version :=
  match (List.insertionSort vle (milestone_numbers.map Prod.fst)).find?
      (fun milestone_version => vltB version milestone_version) with
  | some milestone_version => Except.ok milestone_version
  | none => Except.error BumpErr.runtimeError

/-- Lookup in a Python dictionary with `Version` keys: keys compare by
`Version.__eq__`, i.e. by comparison key. -/
def dictLookup (milestone_numbers : List (Version × String)) (v : Version) :
    Option String :=
  (milestone_numbers.find? (fun p => decide (veq p.fst v))).map Prod.snd

/-- Python strings are embedded as lists of characters. -/
abbrev Str := List Char

/-- `replace_span` (bump_version.py lines 114-126):
`content[:start] + replacement + content[end:]`. -/
def replace_span (span : Nat × Nat) (replacement : Str) (content : Str) :
    Str :=
  content.take span.fst ++ replacement ++ content.drop span.snd

/-- Python's `\w` on the ASCII strings handled by the script. -/
def isWordChar (c : Char) : Bool :=
  c.isAlphanum || c = '_'

/-- Try to match `CAPTURE_RE`, the regex `\x7b(\w+)->(\w+)\x7d`, at the head
of `s`.  On success, return the two captured key names and the total length
of the matched text. -/
def capHere (s : Str) : Option (Str × Str × Nat) :=
  match s with
  | '\x7b' :: rest =>
    let w1 := rest.takeWhile isWordChar
    if w1 = [] then none else
      match rest.drop w1.length with
      | '-' :: '>' :: rest2 =>
        let w2 := rest2.takeWhile isWordChar
        if w2 = [] then none else
          match rest2.drop w2.length with
          | '\x7d' :: _ => some (w1, w2, w1.length + w2.length + 4)
          | _ => none
      | _ => none
  | _ => none

/-- Leftmost-match search for `CAPTURE_RE` (Python `CAPTURE_RE.search`):
scan positions left to right, return the span of the first placeholder
together with the two captured key names, as (start, srcKey, dstKey, end). -/
def findCaptureAux : Str → Nat → Option (Nat × Str × Str × Nat)
  | s, i =>
    match capHere s with
    | some (w1, w2, len) => some (i, w1, w2, i + len)
    | none =>
      match s with
      | [] => none
      | _ :: t => findCaptureAux t (i + 1)

/-- `CAPTURE_RE.search(pattern_template)` with `template_match.span()` and
`template_match.groups()` (bump_version.py lines 143-147). -/
def findCapture (template : Str) : Option (Nat × Str × Str × Nat) :=
  findCaptureAux template 0

/-- One item of a compiled regex, covering the fragment of Python regex
syntax that the substitution engine of the script is exercised with:
the multiline `^` anchor, literal characters (possibly backslash-escaped),
and one capturing group wrapping a literal string. -/
inductive RegexItem
  | lineStart
  | lit (c : Char)
  | group (lits : Str)
  deriving DecidableEq, Repr

/-- Characters that have a regex meaning not modelled here; a pattern using
one of them unescaped is rejected as unsupported (cf. `BumpErr.unsupported`).
The braces are written `\x7b` and `\x7d`. -/
def regexMeta : List Char :=
  ['.', '*', '+', '?', '[', ']', '\x7b', '\x7d', '|', '$', '^', '(', ')']

/-- Worker for `parsePattern`.  `inGroup` says whether we are inside a
capturing group, `gacc` accumulates the group's literal characters in reverse,
`acc` accumulates the parsed items in reverse. -/
def parsePatternAux : Str → Bool → Str → List RegexItem →
    Option (List RegexItem)
  | [], false, _, acc => some acc.reverse
  | [], true, _, _ => none
  | '\\' :: c :: rest, inGroup, gacc, acc =>
    if isWordChar c then none
    else if inGroup then parsePatternAux rest true (c :: gacc) acc
    else parsePatternAux rest false gacc (RegexItem.lit c :: acc)
  | ['\\'], _, _, _ => none
  | '(' :: rest, false, _, acc => parsePatternAux rest true [] acc
  | ')' :: rest, true, gacc, acc =>
    parsePatternAux rest false [] (RegexItem.group gacc.reverse :: acc)
  | '^' :: rest, false, gacc, acc =>
    parsePatternAux rest false gacc (RegexItem.lineStart :: acc)
  | c :: rest, inGroup, gacc, acc =>
    if c ∈ regexMeta then none
    else if inGroup then parsePatternAux rest true (c :: gacc) acc
    else parsePatternAux rest false gacc (RegexItem.lit c :: acc)

/-- Compile a pattern string into regex items (the `re.compile` step implied
by `re.search(pattern, content, flags=re.MULTILINE)`).  Returns `none` when
the pattern falls outside the modelled fragment. -/
def parsePattern (pattern : Str) : Option (List RegexItem) :=
  parsePatternAux pattern false [] []

/-- Match a list of regex items against `content` starting at position `pos`.
`g` carries the span of the first capturing group once it has matched.
Returns the span of group 1 (if any) and the end position of the match.
`lineStart` is the `re.MULTILINE` `^`: it matches at position 0 or right
after a newline.  A group of literals matches exactly its literal string. -/
def matchItems (content : Str) : List RegexItem → Nat → Option (Nat × Nat) →
    Option (Option (Nat × Nat) × Nat)
  | [], pos, g => some (g, pos)
  | RegexItem.lineStart :: rest, pos, g =>
    if pos = 0 ∨ content.get? (pos - 1) = some '\n' then
      matchItems content rest pos g
    else none
  | RegexItem.lit c :: rest, pos, g =>
    match content.get? pos with
    | some d => if d = c then matchItems content rest (pos + 1) g else none
    | none => none
  | RegexItem.group lits :: rest, pos, g =>
    if (content.drop pos).take lits.length = lits then
      matchItems content rest (pos + lits.length)
        (match g with
         | none => some (pos, pos + lits.length)
         | some s => some s)
    else none

/-- `re.search`: try every start position from the left; on the first
position where the items match, return the span of group 1 and the end
position of the match. -/
def reSearch (items : List RegexItem) (content : Str) :
    Option (Option (Nat × Nat) × Nat) :=
  (List.range (content.length + 1)).findSome?
    (fun pos => matchItems content items pos none)

/-- The body of the per-template loop of `bump_version` (bump_version.py
lines 141-159): locate the `\x7bsrcKey->dstKey\x7d` placeholder in the
template (`NoMatch` if absent), look up the source pattern and the
replacement (Python raises `KeyError` on a missing key), build the full
regex by substituting the parenthesised pattern at the placeholder's span,
search the content (`NoMatch` if absent), and replace the span of capturing
group 1 with the replacement (`match.span(1)` raises `IndexError` when the
regex has no group). -/
def resolve_pattern (pattern_template : Str) (patterns replacements : Str → Option Str)
    (content : Str) : Except BumpErr Str :=
  match findCapture pattern_template with
  | none => Except.error BumpErr.noMatch
  | some (ps, current_pattern_name, replacement_name, pe) =>
    match patterns current_pattern_name with
    | none => Except.error BumpErr.keyError
    | some current_pattern =>
      match replacements replacement_name with
      | none => Except.error BumpErr.keyError
      | some replacement =>
        match parsePattern
            (replace_span (ps, pe) ('(' :: (current_pattern ++ [')']))
              pattern_template) with
        | none => Except.error BumpErr.unsupported
        | some items =>
          match reSearch items content with
          | none => Except.error BumpErr.noMatch
          | some (none, _) => Except.error BumpErr.indexError
          | some (some (gs, ge), _) =>
            Except.ok (replace_span (gs, ge) replacement content)

/-- The characters escaped by Python's `re.escape` (CPython ≥ 3.7 escapes
exactly this set).  The braces are written `\x7b` and `\x7d`. -/
def reSpecials : List Char :=
  ['(', ')', '[', ']', '\x7b', '\x7d', '?', '*', '+', '-', '|', '^', '$',
   '\\', '.', '&', '~', '#', ' ', '\t', '\n', '\r', '\x0b', '\x0c']

/-- Python `re.escape`. -/
def reEscape : Str → Str
  | [] => []
  | c :: t => (if c ∈ reSpecials then ['\\', c] else [c]) ++ reEscape t

/-- Number of start positions at which a compiled regex matches the content
(used to state "the pattern matches exactly once"). -/
def countMatches (items : List RegexItem) (content : Str) : Nat :=
  ((List.range (content.length + 1)).filter
    (fun pos => (matchItems content items pos none).isSome)).length

/-- Decimal rendering of a natural number. -/
def natStr (n : Nat) : Str :=
  (Nat.repr n).toList

/-- Canonical rendering of the pre-release phase, as in `str(Version)`. -/
def phaseStr : Nat → Str
  | 0 => ['a']
  | 1 => ['b']
  | _ => ['r', 'c']

/-- Rendering of one local version segment. -/
def localPartStr : Nat ⊕ String → Str
  | Sum.inl n => natStr n
  | Sum.inr s => s.toList

/-- Python `str(version)` for a parsed `packaging.version.Version`: epoch
(with `!`) when non-zero, release components joined by dots, then the
pre-, post-, dev- and local markers in canonical form. -/
def versionStr (v : Version) : Str :=
  (if v.epoch = 0 then [] else natStr v.epoch ++ ['!']) ++
    List.intercalate ['.'] (v.release.map natStr) ++
    (match v.pre with
     | none => []
     | some (ph, n) => phaseStr ph ++ natStr n) ++
    (match v.post with
     | none => []
     | some n => '.' :: ('p' :: 'o' :: 's' :: 't' :: natStr n)) ++
    (match v.dev with
     | none => []
     | some n => '.' :: ('d' :: 'e' :: 'v' :: natStr n)) ++
    (match v.localSeg with
     | [] => []
     | segs => '+' :: List.intercalate ['.'] (segs.map localPartStr))

/-- The `PatternDict` TypedDict (bump_version.py lines 168-173). -/
structure PatternDict where
  old_version : Str
  new_version : Str
  new_milestone : Str
  deriving DecidableEq, Repr

/-- The `ReplacementDict` TypedDict (bump_version.py lines 176-181). -/
structure ReplacementDict where
  new_version : Str
  next_version : Str
  next_milestone : Str
  deriving DecidableEq, Repr

/-- Lookup of a `PatternDict` entry by key name, as in
`patterns[current_pattern_name]`; a missing key is Python's `KeyError`,
signalled by `none`. -/
def PatternDict.lookup (d : PatternDict) (k : Str) : Option Str :=
  if k = "old_version".toList then some d.old_version
  else if k = "new_version".toList then some d.new_version
  else if k = "new_milestone".toList then some d.new_milestone
  else none

/-- Lookup of a `ReplacementDict` entry by key name, as in
`replacements[replacement_name]`. -/
def ReplacementDict.lookup (d : ReplacementDict) (k : Str) : Option Str :=
  if k = "new_version".toList then some d.new_version
  else if k = "next_version".toList then some d.next_version
  else if k = "next_milestone".toList then some d.next_milestone
  else none

/-- `get_replacements` (bump_version.py lines 184-213).  The current version
(read from `version.py` by `get_current_version`) and the milestone map
(fetched from the GitHub API by `get_milestone_numbers`) are passed in as
parameters.  The step order follows the source: compute the new version,
find the next milestone version (`RuntimeError` when none is larger), then
build the pattern dictionary — looking up `milestone_numbers[new_version]`,
which raises `KeyError` when the new version is not a key — and the
replacement dictionary. -/
def get_replacements (old_version : Version)
    (increment_major increment_minor : Bool)
    (milestone_numbers : List (Version × String)) :
    Except BumpErr (PatternDict × ReplacementDict × Version) :=
  match get_next_version old_version increment_major increment_minor with
  | Except.error e => Except.error e
  | Except.ok new_version =>
    match get_next_milestone_version new_version milestone_numbers with
    | Except.error e => Except.error e
    | Except.ok next_version =>
      match dictLookup milestone_numbers new_version with
      | none => Except.error BumpErr.keyError
      | some new_milestone =>
        match dictLookup milestone_numbers next_version with
        | none => Except.error BumpErr.keyError
        | some next_milestone =>
          Except.ok
            (⟨reEscape (versionStr old_version),
              reEscape (versionStr new_version), new_milestone.toList⟩,
             ⟨versionStr new_version, versionStr next_version,
              next_milestone.toList⟩,
             new_version)

/-- Python `content.index(needle)` scanning from position `i`. -/
def strIndexAux : Str → Str → Nat → Option Nat
  | content, needle, i =>
    if needle.isPrefixOf content then some i
    else
      match content with
      | [] => none
      | _ :: t => strIndexAux t needle (i + 1)

/-- Python `content.index(needle)`: position of the first occurrence, `none`
(a `ValueError`) when the needle does not occur. -/
def strIndex (content needle : Str) : Option Nat :=
  strIndexAux content needle 0

/-- The anchor string searched for by `patch_changelog`
(bump_version.py line 261). -/
def changelogAnchor : Str :=
  "These features will be included in the next release:\n\n".toList

/-- The text inserted by `patch_changelog` right after the anchor: empty
`Added`/`Fixed` subsections followed by the dated release heading for
`title`, underlined with `=` of matching length. -/
def changelogSection (title : Str) : Str :=
  "Added\n-----\n\nFixed\n-----\n\n\n".toList ++ title ++ ['\n'] ++
    List.replicate title.length '=' ++ "\n\n".toList

/-- Outcome of `patch_changelog`: the final on-disk content of
`CHANGES.rst`, what was printed (banner and chunk) if anything, and the
exception if one was raised. -/
structure ChangelogResult where
  disk : Str
  printed : Option (String × Str)
  err : Option BumpErr
  deriving DecidableEq, Repr

/-- `patch_changelog` (bump_version.py lines 252-280).  The changelog content
read from `CHANGES.rst` is the `content` parameter and the returned `disk`
field is its on-disk content afterwards.  `content.index` raises
`ValueError` when the anchor is absent — before anything is written, so the
file is unchanged.  On a dry run the first 200 characters of the new content
are printed instead of writing the file. -/
def patch_changelog (next_version : Version) (today : Str) (dry_run : Bool)
    (content : Str) : ChangelogResult :=
  match strIndex content changelogAnchor with
  | none => ⟨content, none, some BumpErr.valueError⟩
  | some i =>
    let insert_point := i + changelogAnchor.length
    let title := versionStr next_version ++ "_ - ".toList ++ today
    let new_content := content.take insert_point ++ changelogSection title ++
      content.drop insert_point
    if dry_run then
      ⟨content, some ("######## CHANGES.rst ########", new_content.take 200),
        none⟩
    else ⟨new_content, none, none⟩

/-- The in-memory model of the working tree and standard output: contents of
the tracked files, and the (banner, content) pairs printed so far. -/
structure BumpState where
  disk : List (String × Str)
  prints : List (String × Str)
  deriving DecidableEq, Repr

/-- `path.read_text()`: look a file up on the disk. -/
def lookupFile (disk : List (String × Str)) (path : String) : Option Str :=
  (disk.find? (fun p => p.fst == path)).map Prod.snd

/-- `path.write_text(content)`: overwrite (or create) a file. -/
def writeFile : List (String × Str) → String → Str → List (String × Str)
  | [], path, c => [(path, c)]
  | p :: t, path, c =>
    if p.fst == path then (path, c) :: t else p :: writeFile t path c

/-- The banner printed before a file's content on a dry run
(bump_version.py line 161). -/
def fileBanner (path : String) : String :=
  "\n######## " ++ path ++ " ########\n"

/-- The inner loop of `bump_version` over one file's pattern templates
(bump_version.py lines 141-159): each template is applied to the cumulative
result of the previous substitutions. -/
def process_file (patterns replacements : Str → Option Str) :
    List Str → Str → Except BumpErr Str
  | [], content => Except.ok content
  | t :: ts, content =>
    match resolve_pattern t patterns replacements content with
    | Except.error e => Except.error e
    | Except.ok c2 => process_file patterns replacements ts c2

/-- The outer loop of `bump_version` over the `PATTERNS` table
(bump_version.py lines 138-164): read each file, apply all its templates,
then either print the result under a banner (dry run) or write it back.  An
exception aborts the loop, leaving the remaining files untouched. -/
def bump_files (patterns replacements : Str → Option Str) (dry_run : Bool) :
    List (String × List Str) → BumpState → BumpState × Option BumpErr
  | [], st => (st, none)
  | (path, templates) :: rest, st =>
    match lookupFile st.disk path with
    | none => (st, some BumpErr.fileNotFound)
    | some content =>
      match process_file patterns replacements templates content with
      | Except.error e => (st, some e)
      | Except.ok c2 =>
        if dry_run then
          bump_files patterns replacements dry_run rest
            ⟨st.disk, st.prints ++ [(fileBanner path, c2)]⟩
        else
          bump_files patterns replacements dry_run rest
            ⟨writeFile st.disk path c2, st.prints⟩

/-- The content a dry run prints for one entry of the pattern table: the
file's content with all of the entry's templates applied (`[]` when the file
is missing or a template fails — cases in which the run aborts before
printing the entry). -/
def dryFileContent (patterns replacements : Str → Option Str)
    (disk : List (String × Str)) (entry : String × List Str) : Str :=
  match lookupFile disk entry.fst with
  | none => []
  | some content =>
    match process_file patterns replacements entry.snd content with
    | Except.ok c2 => c2
    | Except.error _ => []

/-- `VERSION_PY_PATH` (bump_version.py line 30). -/
def VERSION_PY_PATH : String :=
  "src/darker/version.py"

/-- The static `PATTERNS` table (bump_version.py lines 32-65), with the
braces of the placeholders written `\x7b`/`\x7d` and the apostrophe written
`\x27`.  Python stores each file's templates in a set; they are modelled as
a list in source order. -/
def PATTERNS : List (String × List Str) :=
  [(VERSION_PY_PATH,
    ["^__version__ *= *\\\"\x7bold_version->new_version\x7d\\\"".toList]),
   ("action.yml",
    [("^    description: \\\x27Python Version specifier \\(PEP440\\)" ++
       " - e\\.g\\. \"\x7bold_version->new_version\x7d\"").toList,
     "^    default: \"\x7bold_version->new_version\x7d\"".toList,
     ("^      uses: akaihola/darker/.github/actions/commit-range" ++
       "@\x7bold_version->new_version\x7d").toList]),
   ("README.rst",
    ["^           rev: \x7bold_version->new_version\x7d".toList,
     "^       rev: \x7bold_version->new_version\x7d".toList,
     "^         - uses: akaihola/darker@\x7bold_version->new_version\x7d".toList,
     "^             version: \"\x7bold_version->new_version\x7d\"".toList,
     "label=release%20\x7bnew_version->next_version\x7d".toList,
     ("^\\.\\. \\|next-milestone\\| image::" ++
       " https://img\\.shields\\.io/github/milestones/progress/akaihola/darker/" ++
       "\x7bnew_milestone->next_milestone\x7d").toList,
     ("^\\.\\. _next-milestone:" ++
       " https://github\\.com/akaihola/darker/milestone/" ++
       "\x7bnew_milestone->next_milestone\x7d").toList]),
   (".github/ISSUE_TEMPLATE/bug_report.md",
    ["^ - Darker version \\[e\\.g\\. \x7bold_version->new_version\x7d\\]".toList])]

/-- Outcome of one whole run of the `bump_version` command. -/
structure RunResult where
  st : BumpState
  changes : Str
  changesPrinted : Option (String × Str)
  err : Option BumpErr
  deriving DecidableEq, Repr

/-- The `bump_version` CLI command (bump_version.py lines 129-165): compute
the replacements, rewrite (or dry-run print) every file of the `PATTERNS`
table, then patch `CHANGES.rst`.  The current version (`get_current_version`
reads it from `version.py`) and the milestone map (fetched from the GitHub
API) are parameters; `changes` is the content of `CHANGES.rst`.  Any
exception propagates immediately, leaving the remaining effects undone. -/
def bump_version_run (old_version : Version)
    (milestone_numbers : List (Version × String)) (today : Str)
    (dry_run increment_major increment_minor : Bool) (st : BumpState)
    (changes : Str) : RunResult :=
  match get_replacements old_version increment_major increment_minor
      milestone_numbers with
  | Except.error e => ⟨st, changes, none, some e⟩
  | Except.ok (patterns, replacements, new_version) =>
    match bump_files patterns.lookup replacements.lookup dry_run PATTERNS st with
    | (st2, some e) => ⟨st2, changes, none, some e⟩
    | (st2, none) =>
      let r := patch_changelog new_version today dry_run changes
      ⟨st2, r.disk, r.printed, r.err⟩

/-- C1: for a current version with a three-component release and flags
`increment_major`, `increment_minor`, `get_next_version` returns, in priority
order: `(major+1).0.0` if `increment_major`; else `major.(minor+1).0` if
`increment_minor`; else the current version unchanged if it is a pre-release
or development release; else `major.minor.(micro+1)`. -/
theorem get_next_version_spec (v : Version) (ma mi mc : Nat)
    (h : v.release = [ma, mi, mc]) (M m : Bool) :
    get_next_version v M m =
      Except.ok
        (if M then bareVersion (ma + 1) 0 0
         else if m then bareVersion ma (mi + 1) 0
         else if v.is_devrelease || v.is_prerelease then v
         else bareVersion ma mi (mc + 1)) := by
  unfold get_next_version
  rw [h]
  by_cases hM : M <;> by_cases hm : m <;>
    by_cases hp : (v.is_devrelease || v.is_prerelease : Bool) <;>
    simp [hM, hm, hp]

/-- Witness for C1 at the spec's two examples: `1.2.3` with
`increment_minor` gives `1.3.0`, and `1.2.3.dev0` with neither flag is
returned unchanged. -/
theorem get_next_version_spec_witness :
    get_next_version (bareVersion 1 2 3) false true =
        Except.ok (bareVersion 1 3 0) ∧
      get_next_version ⟨0, [1, 2, 3], none, none, some 0, []⟩ false false =
        Except.ok ⟨0, [1, 2, 3], none, none, some 0, []⟩ := by
  constructor
  · have h := get_next_version_spec (bareVersion 1 2 3) 1 2 3 rfl false true
    simpa using h
  · have h := get_next_version_spec ⟨0, [1, 2, 3], none, none, some 0, []⟩
      1 2 3 rfl false false
    simpa [Version.is_devrelease] using h

/-- C4, counterexample: `get_next_version` is not exception-free on every
parsed version — on `Version("1.2")`, whose release tuple has two
components, the unpacking `major, minor, micro = current_version.release`
raises `ValueError`. -/
theorem get_next_version_not_total :
    get_next_version ⟨0, [1, 2], none, none, none, []⟩ false false =
      Except.error BumpErr.valueError := by
  decide

/-- C4, amended: on every parsed version whose release has exactly three
components, `get_next_version` returns a version and raises no exception,
for every combination of the two flags. -/
theorem get_next_version_total (v : Version) (ma mi mc : Nat)
    (h : v.release = [ma, mi, mc]) (M m : Bool) :
    ∃ w, get_next_version v M m = Except.ok w := by
  unfold get_next_version
  rw [h]
  by_cases hM : M
  · exact ⟨bareVersion (ma + 1) 0 0, by simp [hM]⟩
  · by_cases hm : m
    · exact ⟨bareVersion ma (mi + 1) 0, by simp [hM, hm]⟩
    · by_cases hp : (v.is_devrelease || v.is_prerelease : Bool)
      · exact ⟨v, by simp [hM, hm, hp]⟩
      · exact ⟨bareVersion ma mi (mc + 1), by simp [hM, hm, hp]⟩

/-- Witness for the amended C4 at `1.2.3` with both flags unset. -/
theorem get_next_version_total_witness :
    ∃ w, get_next_version (bareVersion 1 2 3) false false = Except.ok w :=
  get_next_version_total (bareVersion 1 2 3) 1 2 3 rfl false false

/-- C5: when both flags are set the major bump wins — the result equals the
result with `increment_major` alone (this part holds for every version, even
ones on which the function raises), and on a three-component release it is
`(major+1).0.0`. -/
theorem get_next_version_both_flags (v : Version) :
    get_next_version v true true = get_next_version v true false ∧
      ∀ ma mi mc, v.release = [ma, mi, mc] →
        get_next_version v true true = Except.ok (bareVersion (ma + 1) 0 0) := by
  constructor
  · unfold get_next_version
    rcases v.release with _ | ⟨a, _ | ⟨b, _ | ⟨c, _ | _⟩⟩⟩ <;> rfl
  · intro ma mi mc h
    unfold get_next_version
    rw [h]
    simp

/-- Witness for C5 at `1.2.3`: both flags give `2.0.0`. -/
theorem get_next_version_both_flags_witness :
    get_next_version (bareVersion 1 2 3) true true =
        get_next_version (bareVersion 1 2 3) true false ∧
      get_next_version (bareVersion 1 2 3) true true =
        Except.ok (bareVersion 2 0 0) :=
  ⟨(get_next_version_both_flags (bareVersion 1 2 3)).1,
   (get_next_version_both_flags (bareVersion 1 2 3)).2 1 2 3 rfl⟩

/-- In a list sorted by a reflexive comparison, the element found by `find?`
is a minimum among the elements satisfying the predicate. -/
theorem find?_pairwise_min {α : Type} {le : α → α → Bool} {p : α → Bool}
    (hrefl : ∀ a, le a a = true) :
    ∀ {l : List α}, l.Pairwise (fun a b => le a b = true) →
      ∀ {w : α}, l.find? p = some w → ∀ u ∈ l, p u = true → le w u = true := by
  intro l
  induction l with
  | nil => intro _ w hw; simp at hw
  | cons a t ih =>
    intro hs w hw u hu hpu
    rcases List.pairwise_cons.mp hs with ⟨ha, ht⟩
    by_cases hpa : p a = true
    · rw [List.find?_cons_of_pos _ hpa] at hw
      cases hw
      rcases List.mem_cons.mp hu with rfl | hut
      · exact hrefl u
      · exact ha u hut
    · rw [List.find?_cons_of_neg _ (by simpa using hpa)] at hw
      rcases List.mem_cons.mp hu with rfl | hut
      · exact absurd hpu hpa
      · exact ih ht hw u hut hpu

/-- In a sorted list with no two order-equivalent elements, `find?` returns
any member that satisfies the predicate and is a lower bound of all elements
satisfying it. -/
theorem find?_eq_some_of_sorted_min {α : Type} {le : α → α → Bool}
    {p : α → Bool} :
    ∀ {l : List α}, l.Pairwise (fun a b => le a b = true) →
      l.Pairwise (fun a b => ¬(le a b = true ∧ le b a = true)) →
      ∀ {w : α}, w ∈ l → p w = true →
        (∀ u ∈ l, p u = true → le w u = true) → l.find? p = some w := by
  intro l
  induction l with
  | nil => intro _ _ w hw; simp at hw
  | cons a t ih =>
    intro hs hd w hw hpw hmin
    rcases List.pairwise_cons.mp hs with ⟨hsa, hst⟩
    rcases List.pairwise_cons.mp hd with ⟨hda, hdt⟩
    rcases List.mem_cons.mp hw with rfl | hwt
    · exact List.find?_cons_of_pos _ hpw
    · by_cases hpa : p a = true
      · exact absurd ⟨hsa w hwt, hmin a (List.mem_cons_self a t) hpa⟩
          (hda w hwt)
      · rw [List.find?_cons_of_neg _ (by simpa using hpa)]
        exact ih hst hdt hwt hpw
          (fun u hu hpu => hmin u (List.mem_cons_of_mem a hu) hpu)

/-- C2: on a milestone map whose keys are pairwise non-equal (the invariant
of a Python dictionary), `get_next_milestone_version` returns `w` exactly
when `w` is a key strictly greater than the input version and no key
strictly greater than the input version is smaller than `w` (i.e. `w` is the
minimum key strictly greater than the input), and it raises `RuntimeError`
exactly when the map is empty or has no key strictly greater than the
input. -/
theorem get_next_milestone_version_spec (v : Version)
    (m : List (Version × String))
    (hdist : (m.map Prod.fst).Pairwise (fun a b => ¬ veq a b)) :
    (∀ w, get_next_milestone_version v m = Except.ok w ↔
      (w ∈ m.map Prod.fst ∧ vlt v w ∧
        ∀ u ∈ m.map Prod.fst, vlt v u → vle w u)) ∧
    (get_next_milestone_version v m = Except.error BumpErr.runtimeError ↔
      (m = [] ∨ ∀ u ∈ m.map Prod.fst, ¬ vlt v u)) := by
  have hrefl : ∀ a : Version, vleB a a = true := by
    intro a
    simp [vleB, vle]
  have hperm : List.Perm (List.insertionSort vle (m.map Prod.fst))
      (m.map Prod.fst) :=
    List.perm_insertionSort vle (m.map Prod.fst)
  have hsorted : (List.insertionSort vle (m.map Prod.fst)).Pairwise
      (fun a b => vleB a b = true) :=
    (List.sorted_insertionSort vle (m.map Prod.fst)).imp
      (fun hab => decide_eq_true hab)
  have hdists : (List.insertionSort vle (m.map Prod.fst)).Pairwise
      (fun a b => ¬(vleB a b = true ∧ vleB b a = true)) :=
    ((hperm.pairwise_iff (fun h he => h he.symm)).mpr hdist).imp
      (fun hab hc =>
        hab (le_antisymm (of_decide_eq_true hc.1) (of_decide_eq_true hc.2)))
  have hok : ∀ w, get_next_milestone_version v m = Except.ok w ↔
      (List.insertionSort vle (m.map Prod.fst)).find?
        (fun mv => vltB v mv) = some w := by
    intro w
    unfold get_next_milestone_version
    cases hf : (List.insertionSort vle (m.map Prod.fst)).find?
        (fun mv => vltB v mv) with
    | some x => simp [hf]
    | none => simp [hf]
  have herr : get_next_milestone_version v m =
        Except.error BumpErr.runtimeError ↔
      (List.insertionSort vle (m.map Prod.fst)).find?
        (fun mv => vltB v mv) = none := by
    unfold get_next_milestone_version
    cases hf : (List.insertionSort vle (m.map Prod.fst)).find?
        (fun mv => vltB v mv) with
    | some x => simp [hf]
    | none => simp [hf]
  constructor
  · intro w
    rw [hok w]
    constructor
    · intro hf
      have hwmem : w ∈ m.map Prod.fst :=
        hperm.mem_iff.mp (List.mem_of_find?_eq_some hf)
      have hpw : vltB v w = true := List.find?_some hf
      refine ⟨hwmem, of_decide_eq_true hpw, ?_⟩
      intro u hu hvu
      exact of_decide_eq_true
        (find?_pairwise_min hrefl hsorted hf u (hperm.mem_iff.mpr hu)
          (decide_eq_true hvu))
    · rintro ⟨hwmem, hvw, hmin⟩
      exact find?_eq_some_of_sorted_min hsorted hdists
        (hperm.mem_iff.mpr hwmem) (decide_eq_true hvw)
        (fun u hu hpu =>
          decide_eq_true (hmin u (hperm.mem_iff.mp hu) (of_decide_eq_true hpu)))
  · rw [herr, List.find?_eq_none]
    constructor
    · intro hnone
      right
      intro u hu hvu
      exact hnone u (hperm.mem_iff.mpr hu) (decide_eq_true hvu)
    · intro hcase u hu hp
      rcases hcase with hm0 | hall
      · subst hm0
        simp [List.insertionSort] at hu
      · exact hall u (hperm.mem_iff.mp hu) (of_decide_eq_true hp)

/-- Witness for C2 at the spec's example: milestones `1.3.0 -> 1`
and `2.0.0 -> 2`, input version `1.3.0`, next milestone version `2.0.0`. -/
theorem get_next_milestone_version_spec_witness :
    (([(bareVersion 1 3 0, "1"), (bareVersion 2 0 0, "2")].map
        Prod.fst).Pairwise (fun a b => ¬ veq a b)) ∧
      get_next_milestone_version (bareVersion 1 3 0)
        [(bareVersion 1 3 0, "1"), (bareVersion 2 0 0, "2")] =
        Except.ok (bareVersion 2 0 0) :=
  ⟨by decide,
   ((get_next_milestone_version_spec (bareVersion 1 3 0)
        [(bareVersion 1 3 0, "1"), (bareVersion 2 0 0, "2")]
        (by decide)).1 (bareVersion 2 0 0)).mpr (by decide)⟩

/-- Structure of a successful `matchItems` run: positions only move
forward and stay inside the content, and the span of group 1 is either the
span passed in or the span of a literal group of the items, in which case
the content carries exactly the group's literal string on that span. -/
theorem matchItems_group_spec (content : Str) :
    ∀ (items : List RegexItem) (pos : Nat) (g : Option (Nat × Nat))
      (r : Option (Nat × Nat) × Nat),
      matchItems content items pos g = some r → pos ≤ content.length →
      (pos ≤ r.2 ∧ r.2 ≤ content.length) ∧
      (r.1 = g ∨
        (g = none ∧ ∃ gs ge lits, r.1 = some (gs, ge) ∧
          RegexItem.group lits ∈ items ∧ ge = gs + lits.length ∧
          (content.drop gs).take lits.length = lits ∧ pos ≤ gs ∧ ge ≤ r.2)) := by
  intro items
  induction items with
  | nil =>
    intro pos g r h hpos
    cases h
    exact ⟨⟨Nat.le_refl pos, hpos⟩, Or.inl rfl⟩
  | cons it rest ih =>
    intro pos g r h hpos
    cases it with
    | lineStart =>
      simp only [matchItems] at h
      split at h
      · rcases ih pos g r h hpos with ⟨hb, hg⟩
        refine ⟨hb, ?_⟩
        rcases hg with hg | ⟨hgn, gs, ge, lits, h1, h2, h3, h4, h5, h6⟩
        · exact Or.inl hg
        · exact Or.inr ⟨hgn, gs, ge, lits, h1, List.mem_cons_of_mem _ h2,
            h3, h4, h5, h6⟩
      · exact absurd h (by simp)
    | lit c =>
      simp only [matchItems] at h
      split at h
      · rename_i d hd
        split at h
        · have hlt : pos < content.length := by
            rcases List.get?_eq_some.mp hd with ⟨hl, _⟩
            exact hl
          rcases ih (pos + 1) g r h hlt with ⟨⟨hb1, hb2⟩, hg⟩
          refine ⟨⟨Nat.le_trans (Nat.le_succ pos) hb1, hb2⟩, ?_⟩
          rcases hg with hg | ⟨hgn, gs, ge, lits, h1, h2, h3, h4, h5, h6⟩
          · exact Or.inl hg
          · exact Or.inr ⟨hgn, gs, ge, lits, h1, List.mem_cons_of_mem _ h2,
              h3, h4, Nat.le_trans (Nat.le_succ pos) h5, h6⟩
        · exact absurd h (by simp)
      · exact absurd h (by simp)
    | group lits =>
      simp only [matchItems] at h
      split at h
      · rename_i htk
        have hlen : lits.length ≤ content.length - pos := by
          have hcl := congrArg List.length htk
          simp [List.length_take, List.length_drop] at hcl
          omega
        have hpos2 : pos + lits.length ≤ content.length := by omega
        rcases ih (pos + lits.length) _ r h hpos2 with ⟨⟨hb1, hb2⟩, hg⟩
        refine ⟨⟨Nat.le_trans (Nat.le_add_right pos lits.length) hb1, hb2⟩, ?_⟩
        cases g with
        | some s =>
          rcases hg with hg | ⟨hgn, _⟩
          · exact Or.inl hg
          · exact absurd hgn (by simp)
        | none =>
          rcases hg with hg | ⟨_, gs, ge, lits2, h1, h2, h3, h4, h5, h6⟩
          · exact Or.inr ⟨rfl, pos, pos + lits.length, lits, hg,
              List.mem_cons_self _ _, rfl, htk, Nat.le_refl pos, hb1⟩
          · exact Or.inr ⟨rfl, gs, ge, lits2, h1, List.mem_cons_of_mem _ h2,
              h3, h4, Nat.le_trans (Nat.le_add_right pos lits.length) h5, h6⟩
      · exact absurd h (by simp)

/-- Structure of a successful `reSearch` whose match has a group 1 span:
the span lies inside the content and carries exactly the literal string of
one of the items' groups. -/
theorem reSearch_group_spec (items : List RegexItem) (content : Str)
    (gs ge endp : Nat)
    (h : reSearch items content = some (some (gs, ge), endp)) :
    gs ≤ ge ∧ ge ≤ content.length ∧
      ∃ lits, RegexItem.group lits ∈ items ∧ ge = gs + lits.length ∧
        (content.drop gs).take lits.length = lits := by
  rcases List.exists_of_findSome?_eq_some h with ⟨pos, hpos, hm⟩
  have hposle : pos ≤ content.length := by
    have := List.mem_range.mp hpos
    omega
  rcases matchItems_group_spec content items pos none
      (some (gs, ge), endp) hm hposle with ⟨⟨_, hb2⟩, hg⟩
  rcases hg with hg | ⟨_, gs2, ge2, lits, h1, h2, h3, h4, _, h6⟩
  · exact absurd hg (by simp)
  · have hgs : gs2 = gs ∧ ge2 = ge := by
      have h1' : (some (gs2, ge2) : Option (Nat × Nat)) = some (gs, ge) := h1.symm
      cases h1'
      exact ⟨rfl, rfl⟩
    rcases hgs with ⟨rfl, rfl⟩
    exact ⟨by omega, by omega, lits, h2, h3, h4⟩

/-- Inversion of a successful `resolve_pattern` run: the intermediate
values it went through, and the shape of the result — the captured span is
replaced, the rest of the content is kept. -/
theorem resolve_pattern_ok_inv (t : Str) (pd rd : Str → Option Str) (c r : Str)
    (h : resolve_pattern t pd rd c = Except.ok r) :
    ∃ ps srcKey dstKey pe cp repl items gs ge endp,
      findCapture t = some (ps, srcKey, dstKey, pe) ∧
      pd srcKey = some cp ∧ rd dstKey = some repl ∧
      parsePattern (replace_span (ps, pe) ('(' :: (cp ++ [')'])) t) =
        some items ∧
      reSearch items c = some (some (gs, ge), endp) ∧
      gs ≤ ge ∧ ge ≤ c.length ∧
      r = c.take gs ++ repl ++ c.drop ge ∧
      r.take gs = c.take gs ∧ r.drop (gs + repl.length) = c.drop ge := by
  unfold resolve_pattern at h
  split at h
  · exact absurd h (by simp)
  · rename_i ps srcKey dstKey pe hfc
    split at h
    · exact absurd h (by simp)
    · rename_i cp hcp
      split at h
      · exact absurd h (by simp)
      · rename_i repl hrepl
        split at h
        · exact absurd h (by simp)
        · rename_i items hitems
          split at h
          · exact absurd h (by simp)
          · exact absurd h (by simp)
          · rename_i gs ge endp hsearch
            cases h
            rcases reSearch_group_spec items c gs ge endp hsearch with
              ⟨hge, hlen, _⟩
            have htake : (c.take gs).length = gs := by
              simp [List.length_take]
              omega
            refine ⟨ps, srcKey, dstKey, pe, cp, repl, items, gs, ge, endp,
              hfc, hcp, hrepl, hitems, hsearch, hge, hlen, rfl, ?_, ?_⟩
            · rw [replace_span, List.append_assoc]
              exact List.take_left' htake
            · rw [replace_span]
              refine List.drop_left' ?_
              simp [htake]

/-- C3: whenever the substitution of one pattern template succeeds, the
result replaces exactly the span captured by group 1 of the built regex
(the capturing group wrapped around `patternDict[srcKey]`) with
`replacementDict[dstKey]`, and every character of the content outside that
span — the prefix before the span and the suffix after it — is unchanged. -/
theorem resolve_pattern_spec (t : Str) (pd rd : Str → Option Str) (c r : Str)
    (h : resolve_pattern t pd rd c = Except.ok r) :
    ∃ ps srcKey dstKey pe cp repl items gs ge endp,
      findCapture t = some (ps, srcKey, dstKey, pe) ∧
      pd srcKey = some cp ∧ rd dstKey = some repl ∧
      parsePattern (replace_span (ps, pe) ('(' :: (cp ++ [')'])) t) =
        some items ∧
      reSearch items c = some (some (gs, ge), endp) ∧
      gs ≤ ge ∧ ge ≤ c.length ∧
      r = c.take gs ++ repl ++ c.drop ge ∧
      r.take gs = c.take gs ∧ r.drop (gs + repl.length) = c.drop ge :=
  resolve_pattern_ok_inv t pd rd c r h

/-- Witness for C3 at the spec's example: the `version.py` template applied
to `__version__ = "1.2.3"` with replacement `1.3.0`. -/
theorem resolve_pattern_spec_witness :
    resolve_pattern
        ("^__version__ = \\\"\x7bold_version->new_version\x7d\\\"".toList)
        (fun k => if k = "old_version".toList then some ( "1\\.2\\.3".toList)
          else none)
        (fun k => if k = "new_version".toList then some ( "1.3.0".toList)
          else none)
        ("__version__ = \"1.2.3\"\n".toList) =
        Except.ok ("__version__ = \"1.3.0\"\n".toList) ∧
      (∃ ps srcKey dstKey pe cp repl items gs ge endp,
        findCapture
            ("^__version__ = \\\"\x7bold_version->new_version\x7d\\\"".toList) =
          some (ps, srcKey, dstKey, pe) ∧
        (fun k => if k = "old_version".toList then some ( "1\\.2\\.3".toList)
          else none) srcKey = some cp ∧
        (fun k => if k = "new_version".toList then some ( "1.3.0".toList)
          else none) dstKey = some repl ∧
        parsePattern (replace_span (ps, pe) ('(' :: (cp ++ [')']))
            ("^__version__ = \\\"\x7bold_version->new_version\x7d\\\"".toList)) =
          some items ∧
        reSearch items ("__version__ = \"1.2.3\"\n".toList) =
          some (some (gs, ge), endp) ∧
        gs ≤ ge ∧ ge ≤ ("__version__ = \"1.2.3\"\n".toList).length ∧
        ("__version__ = \"1.3.0\"\n".toList) =
          ("__version__ = \"1.2.3\"\n".toList).take gs ++ repl ++
            ("__version__ = \"1.2.3\"\n".toList).drop ge ∧
        ("__version__ = \"1.3.0\"\n".toList).take gs =
          ("__version__ = \"1.2.3\"\n".toList).take gs ∧
        ("__version__ = \"1.3.0\"\n".toList).drop (gs + repl.length) =
          ("__version__ = \"1.2.3\"\n".toList).drop ge) :=
  ⟨by decide, resolve_pattern_spec _ _ _ _ _ (by decide)⟩

/-- Splitting a list at a span and recombining the three parts yields the
original list. -/
theorem take_extract_drop (c : Str) (gs n : Nat) :
    c.take gs ++ ((c.drop gs).take n ++ c.drop (gs + n)) = c := by
  have h1 : (c.drop gs).drop n = c.drop (gs + n) := by
    rw [List.drop_drop, Nat.add_comm]
  rw [← h1, List.take_append_drop, List.take_append_drop]

/-- C6, counterexample: the round trip does not always recover the original
string.  Template `\x7bo->n\x7d`, old value `ab`, new value `b`, content
`xb ab` (which matches the built pattern `(ab)` exactly once): the forward
substitution gives `xb b`, but the inverse substitution's pattern `(b)` first
matches the earlier `b` at position 1, so it returns `xab b`, not the
original `xb ab`. -/
theorem resolve_pattern_roundtrip_cex :
    resolve_pattern ("\x7bo->n\x7d".toList)
        (fun k => if k = "o".toList then some (reEscape ("ab".toList))
          else none)
        (fun k => if k = "n".toList then some ( "b".toList) else none)
        ("xb ab".toList) = Except.ok ("xb b".toList) ∧
      parsePattern ('(' :: (reEscape ("ab".toList) ++ [')'])) =
        some [RegexItem.group ("ab".toList)] ∧
      countMatches [RegexItem.group ("ab".toList)] ("xb ab".toList) = 1 ∧
      resolve_pattern ("\x7bo->n\x7d".toList)
        (fun k => if k = "o".toList then some (reEscape ("b".toList))
          else none)
        (fun k => if k = "n".toList then some ( "ab".toList) else none)
        ("xb b".toList) = Except.ok ("xab b".toList) ∧
      ("xab b".toList : Str) ≠ ("xb ab".toList : Str) := by
  decide

/-- C6, amended: the round trip does recover the original string provided
the template's placeholder is its only capturing group and the inverse
substitution's regex first matches at the span where the new value was
inserted (capturing exactly the inserted new value); the counterexample
shows the proviso is needed when the new value also occurs earlier in the
substituted content. -/
theorem resolve_pattern_roundtrip (t src dst old new c r1 r2 : Str)
    (ps pe gs ge endp : Nat) (items1 items2 : List RegexItem)
    (hfc : findCapture t = some (ps, src, dst, pe))
    (hitems1 : parsePattern
        (replace_span (ps, pe) ('(' :: (reEscape old ++ [')'])) t) =
      some items1)
    (hg1 : ∀ l, RegexItem.group l ∈ items1 → l = old)
    (hsearch1 : reSearch items1 c = some (some (gs, ge), endp))
    (hforward : resolve_pattern t
        (fun k => if k = src then some (reEscape old) else none)
        (fun k => if k = dst then some new else none) c = Except.ok r1)
    (hitems2 : parsePattern
        (replace_span (ps, pe) ('(' :: (reEscape new ++ [')'])) t) =
      some items2)
    (hsearch2 : ∃ endp2, reSearch items2 r1 =
      some (some (gs, gs + new.length), endp2))
    (hinverse : resolve_pattern t
        (fun k => if k = src then some (reEscape new) else none)
        (fun k => if k = dst then some old else none) r1 = Except.ok r2) :
    r2 = c := by
  rcases resolve_pattern_ok_inv _ _ _ _ _ hforward with
    ⟨ps1, src1, dst1, pe1, cp1, repl1, items1f, gs1, ge1, endp1,
     hfc1, hcp1, hrepl1, hitems1f, hsearch1f, _, _, hr1, _, _⟩
  have he1 := hfc.symm.trans hfc1
  simp only [Option.some.injEq, Prod.mk.injEq] at he1
  obtain ⟨rfl, rfl, rfl, rfl⟩ := he1
  rw [if_pos rfl] at hcp1 hrepl1
  obtain ⟨rfl⟩ : cp1 = reEscape old := by
    cases hcp1
    rfl
  obtain ⟨rfl⟩ : repl1 = new := by
    cases hrepl1
    rfl
  obtain ⟨rfl⟩ : items1f = items1 := by
    have := hitems1.symm.trans hitems1f
    cases this
    rfl
  have he2 := hsearch1.symm.trans hsearch1f
  simp only [Option.some.injEq, Prod.mk.injEq] at he2
  obtain ⟨⟨rfl, rfl⟩, rfl⟩ := he2
  rcases reSearch_group_spec items1 c gs ge endp hsearch1 with
    ⟨hgsge, hgelen, lits, hmem, hgeq, hextract⟩
  have hlits : lits = old := hg1 lits hmem
  rw [hlits] at hgeq hextract
  rcases resolve_pattern_ok_inv _ _ _ _ _ hinverse with
    ⟨ps2, src2, dst2, pe2, cp2, repl2, items2f, gs2, ge2, endp2f,
     hfc2, hcp2, hrepl2, hitems2f, hsearch2f, _, _, hr2, _, _⟩
  have he3 := hfc.symm.trans hfc2
  simp only [Option.some.injEq, Prod.mk.injEq] at he3
  obtain ⟨rfl, rfl, rfl, rfl⟩ := he3
  rw [if_pos rfl] at hcp2 hrepl2
  obtain ⟨rfl⟩ : cp2 = reEscape new := by
    cases hcp2
    rfl
  obtain ⟨rfl⟩ : repl2 = old := by
    cases hrepl2
    rfl
  obtain ⟨rfl⟩ : items2f = items2 := by
    have := hitems2.symm.trans hitems2f
    cases this
    rfl
  rcases hsearch2 with ⟨endp2w, hs2⟩
  have he4 := hs2.symm.trans hsearch2f
  simp only [Option.some.injEq, Prod.mk.injEq] at he4
  obtain ⟨⟨rfl, rfl⟩, rfl⟩ := he4
  have htakelen : (c.take gs).length = gs := by
    simp [List.length_take]
    omega
  have hr1take : r1.take gs = c.take gs := by
    rw [hr1, List.append_assoc]
    exact List.take_left' htakelen
  have hr1drop : r1.drop (gs + new.length) = c.drop ge := by
    rw [hr1]
    refine List.drop_left' ?_
    simp [htakelen]
  have hfinal := take_extract_drop c gs old.length
  rw [hextract] at hfinal
  rw [hr2, hr1take, hr1drop, hgeq, List.append_assoc]
  exact hfinal

/-- Witness for the amended C6: the version template round-trips
`__version__ = "1.2.3"` through `__version__ = "1.3.0"` and back. -/
theorem resolve_pattern_roundtrip_witness :
    ("__version__ = \"1.2.3\"\n".toList : Str) =
      "__version__ = \"1.2.3\"\n".toList :=
  resolve_pattern_roundtrip
    ("^__version__ = \\\"\x7bold_version->new_version\x7d\\\"".toList)
    ("old_version".toList) ("new_version".toList)
    ("1.2.3".toList) ("1.3.0".toList)
    ("__version__ = \"1.2.3\"\n".toList)
    ("__version__ = \"1.3.0\"\n".toList)
    ("__version__ = \"1.2.3\"\n".toList)
    17 43 15 20 21
    ([RegexItem.lineStart] ++ ("__version__ = ".toList.map RegexItem.lit) ++
      [RegexItem.lit '"', RegexItem.group ("1.2.3".toList),
       RegexItem.lit '"'])
    ([RegexItem.lineStart] ++ ("__version__ = ".toList.map RegexItem.lit) ++
      [RegexItem.lit '"', RegexItem.group ("1.3.0".toList),
       RegexItem.lit '"'])
    (by decide) (by decide)
    (by
      intro l hl
      simpa using hl)
    (by decide) (by decide) (by decide) ⟨21, by decide⟩ (by decide)

/-- `strIndexAux` returns `none` exactly when the needle occurs nowhere. -/
theorem strIndexAux_eq_none (n : Str) :
    ∀ (c : Str) (i : Nat), strIndexAux c n i = none ↔
      ∀ j, n.isPrefixOf (c.drop j) = false := by
  intro c
  induction c with
  | nil =>
    intro i
    rw [strIndexAux]
    by_cases hp : n.isPrefixOf ([] : Str) = true
    · rw [if_pos hp]
      constructor
      · intro h
        exact absurd h (by simp)
      · intro hall
        have := hall 0
        rw [List.drop_nil] at this
        rw [hp] at this
        cases this
    · rw [if_neg hp]
      rw [Bool.not_eq_true] at hp
      constructor
      · intro _ j
        rw [List.drop_nil]
        exact hp
      · intro _
        rfl
  | cons a t ih =>
    intro i
    rw [strIndexAux]
    by_cases hp : n.isPrefixOf (a :: t) = true
    · rw [if_pos hp]
      constructor
      · intro h
        exact absurd h (by simp)
      · intro hall
        have := hall 0
        rw [List.drop_zero] at this
        rw [hp] at this
        cases this
    · rw [if_neg hp]
      rw [Bool.not_eq_true] at hp
      constructor
      · intro h j
        cases j with
        | zero =>
          rw [List.drop_zero]
          exact hp
        | succ m =>
          rw [List.drop_succ_cons]
          exact (ih (i + 1)).mp h m
      · intro hall
        refine (ih (i + 1)).mpr ?_
        intro j
        have := hall (j + 1)
        rwa [List.drop_succ_cons] at this

/-- `strIndexAux` returns the index of the first occurrence of the
needle. -/
theorem strIndexAux_eq_some (n : Str) :
    ∀ (c : Str) (i r : Nat), strIndexAux c n i = some r →
      ∃ j, r = i + j ∧ n.isPrefixOf (c.drop j) = true ∧
        ∀ k < j, n.isPrefixOf (c.drop k) = false := by
  intro c
  induction c with
  | nil =>
    intro i r h
    rw [strIndexAux] at h
    by_cases hp : n.isPrefixOf ([] : Str) = true
    · rw [if_pos hp] at h
      cases h
      exact ⟨0, by omega, by rw [List.drop_nil]; exact hp,
        fun k hk => absurd hk (Nat.not_lt_zero k)⟩
    · rw [if_neg hp] at h
      exact absurd h (by simp)
  | cons a t ih =>
    intro i r h
    rw [strIndexAux] at h
    by_cases hp : n.isPrefixOf (a :: t) = true
    · rw [if_pos hp] at h
      cases h
      exact ⟨0, by omega, by rw [List.drop_zero]; exact hp,
        fun k hk => absurd hk (Nat.not_lt_zero k)⟩
    · rw [if_neg hp] at h
      rw [Bool.not_eq_true] at hp
      rcases ih (i + 1) r h with ⟨j, hr, hpre, hmin⟩
      refine ⟨j + 1, by omega, by rw [List.drop_succ_cons]; exact hpre, ?_⟩
      intro k hk
      cases k with
      | zero =>
        rw [List.drop_zero]
        exact hp
      | succ m =>
        have := hmin m (by omega)
        rw [List.drop_succ_cons]
        exact this

/-- C7: `patch_changelog` raises (an unhandled `ValueError`) exactly when
the changelog content does not contain the anchor string, and on that error
the changelog is not written — its content is unchanged.  When the anchor is
present (at first position `i`), the new section is inserted immediately
after the anchor: the written content is the original up to the end of the
anchor occurrence, then the new section, then the rest of the original. -/
theorem patch_changelog_spec (nv : Version) (today : Str) (dry : Bool)
    (content : Str) :
    ((patch_changelog nv today dry content).err = some BumpErr.valueError ↔
      ∀ i ≤ content.length,
        changelogAnchor.isPrefixOf (content.drop i) = false) ∧
    ((patch_changelog nv today dry content).err ≠ none →
      (patch_changelog nv today dry content).disk = content) ∧
    (∀ i, strIndex content changelogAnchor = some i →
      changelogAnchor.isPrefixOf (content.drop i) = true ∧
      (∀ k < i, changelogAnchor.isPrefixOf (content.drop k) = false) ∧
      (dry = false →
        (patch_changelog nv today dry content).disk =
          content.take (i + changelogAnchor.length) ++
            changelogSection (versionStr nv ++ "_ - ".toList ++ today) ++
            content.drop (i + changelogAnchor.length))) := by
  have hnilpref : changelogAnchor.isPrefixOf ([] : Str) = false := by decide
  have hbound : (∀ i ≤ content.length,
        changelogAnchor.isPrefixOf (content.drop i) = false) ↔
      (∀ i, changelogAnchor.isPrefixOf (content.drop i) = false) := by
    constructor
    · intro hb i
      by_cases hi : i ≤ content.length
      · exact hb i hi
      · rw [List.drop_eq_nil_of_le (by omega)]
        exact hnilpref
    · intro hall i _
      exact hall i
  refine ⟨?_, ?_, ?_⟩
  · rw [hbound, ← strIndexAux_eq_none changelogAnchor content 0]
    unfold patch_changelog strIndex
    cases hidx : strIndexAux content changelogAnchor 0 with
    | none => simp
    | some j =>
      simp only [hidx]
      by_cases hd : dry = true <;> simp [hd]
  · unfold patch_changelog strIndex
    cases hidx : strIndexAux content changelogAnchor 0 with
    | none => simp [hidx]
    | some j =>
      by_cases hd : dry = true <;> simp [hd, hidx]
  · intro i hi
    rcases strIndexAux_eq_some changelogAnchor content 0 i hi with
      ⟨j, hij, hpre, hmin⟩
    have hji : j = i := by omega
    subst hji
    refine ⟨hpre, hmin, ?_⟩
    intro hdry
    unfold patch_changelog
    rw [hi, hdry]
    simp

/-- Witness for C7: on a changelog without the anchor the patcher fails with
`ValueError` and leaves the content unchanged; on one with the anchor (at
position 8) the section is inserted right after the anchor. -/
theorem patch_changelog_spec_witness :
    (patch_changelog (bareVersion 1 3 0) ("2026-10-12".toList) false
        ("no anchor here\n".toList)).err = some BumpErr.valueError ∧
      (patch_changelog (bareVersion 1 3 0) ("2026-10-12".toList) false
          ("no anchor here\n".toList)).disk = "no anchor here\n".toList ∧
      (patch_changelog (bareVersion 1 3 0) ("2026-10-12".toList) false
          ("Header\n\nThese features will be included in the next release:\n\n- Old item\n".toList)).disk =
        ("Header\n\nThese features will be included in the next release:\n\n".toList) ++
          changelogSection (versionStr (bareVersion 1 3 0) ++ "_ - ".toList ++
            "2026-10-12".toList) ++
          ("- Old item\n".toList) := by
  refine ⟨?_, ?_, ?_⟩
  · exact (patch_changelog_spec (bareVersion 1 3 0) ("2026-10-12".toList)
      false ("no anchor here\n".toList)).1.mpr (by decide)
  · exact (patch_changelog_spec (bareVersion 1 3 0) ("2026-10-12".toList)
      false ("no anchor here\n".toList)).2.1 (by decide)
  · have h := ((patch_changelog_spec (bareVersion 1 3 0)
      ("2026-10-12".toList) false
      ("Header\n\nThese features will be included in the next release:\n\n- Old item\n".toList)).2.2
      8 (by decide)).2.2 rfl
    rw [h]
    decide

/-- On a dry run the file loop never changes the disk, whether it finishes
or aborts with an error. -/
theorem bump_files_dry_disk (pd rd : Str → Option Str) :
    ∀ (table : List (String × List Str)) (st : BumpState),
      (bump_files pd rd true table st).1.disk = st.disk := by
  intro table
  induction table with
  | nil =>
    intro st
    rfl
  | cons e rest ih =>
    intro st
    obtain ⟨path, templates⟩ := e
    simp only [bump_files]
    cases hl : lookupFile st.disk path with
    | none => rfl
    | some content =>
      dsimp only
      cases hp : process_file pd rd templates content with
      | error e2 => rfl
      | ok c2 =>
        dsimp only
        exact ih ⟨st.disk, st.prints ++ [(fileBanner path, c2)]⟩

/-- On a dry run that finishes without an error, the file loop prints, for
each entry of the table in order, the banner of the entry's path and the
entry's fully substituted content. -/
theorem bump_files_dry_prints (pd rd : Str → Option Str) :
    ∀ (table : List (String × List Str)) (st : BumpState),
      (bump_files pd rd true table st).2 = none →
      (bump_files pd rd true table st).1.prints =
        st.prints ++ table.map (fun e =>
          (fileBanner e.fst, dryFileContent pd rd st.disk e)) := by
  intro table
  induction table with
  | nil =>
    intro st _
    simp [bump_files]
  | cons e rest ih =>
    intro st herr
    obtain ⟨path, templates⟩ := e
    simp only [bump_files] at herr ⊢
    cases hl : lookupFile st.disk path with
    | none =>
      rw [hl] at herr
      exact absurd herr (by simp)
    | some content =>
      rw [hl] at herr
      dsimp only at herr ⊢
      cases hp : process_file pd rd templates content with
      | error e2 =>
        rw [hp] at herr
        exact absurd herr (by simp)
      | ok c2 =>
        rw [hp] at herr
        dsimp only at herr ⊢
        have hrec := ih ⟨st.disk, st.prints ++ [(fileBanner path, c2)]⟩ herr
        have hdfc : dryFileContent pd rd st.disk (path, templates) = c2 := by
          unfold dryFileContent
          rw [hl]
          dsimp only
          rw [hp]
        simpa [hdfc] using hrec

/-- C8: with `--dry-run` no tracked file is modified on disk: the file loop
leaves the disk untouched (even when it aborts), and when it finishes it has
printed, for every file of the table, the fully substituted content under
that file's labeled banner; the changelog patcher leaves the changelog
untouched and prints only the first 200 characters of its result; a whole
dry run leaves the disk and the changelog as they were. -/
theorem dry_run_no_writes (pd rd : Str → Option Str)
    (table : List (String × List Str)) (st : BumpState) (nv old : Version)
    (ms : List (Version × String)) (M m : Bool) (today changes : Str) :
    (bump_files pd rd true table st).1.disk = st.disk ∧
    ((bump_files pd rd true table st).2 = none →
      (bump_files pd rd true table st).1.prints =
        st.prints ++ table.map (fun e =>
          (fileBanner e.fst, dryFileContent pd rd st.disk e))) ∧
    (patch_changelog nv today true changes).disk = changes ∧
    (∀ i, strIndex changes changelogAnchor = some i →
      (patch_changelog nv today true changes).printed =
        some ("######## CHANGES.rst ########",
          (changes.take (i + changelogAnchor.length) ++
            changelogSection (versionStr nv ++ "_ - ".toList ++ today) ++
            changes.drop (i + changelogAnchor.length)).take 200)) ∧
    (bump_version_run old ms today true M m st changes).st.disk = st.disk ∧
    (bump_version_run old ms today true M m st changes).changes = changes := by
  have hpatchdisk : ∀ nv2 : Version,
      (patch_changelog nv2 today true changes).disk = changes := by
    intro nv2
    unfold patch_changelog
    cases hidx : strIndex changes changelogAnchor with
    | none => rfl
    | some i => simp
  refine ⟨bump_files_dry_disk pd rd table st, bump_files_dry_prints pd rd table st,
    hpatchdisk nv, ?_, ?_, ?_⟩
  · intro i hi
    unfold patch_changelog
    rw [hi]
    simp
  · unfold bump_version_run
    cases hr : get_replacements old M m ms with
    | error e => rfl
    | ok prr =>
      obtain ⟨p, r, nv2⟩ := prr
      dsimp only
      have hsplit : bump_files p.lookup r.lookup true PATTERNS st =
          ((bump_files p.lookup r.lookup true PATTERNS st).1,
           (bump_files p.lookup r.lookup true PATTERNS st).2) := rfl
      rw [hsplit]
      cases herr2 : (bump_files p.lookup r.lookup true PATTERNS st).2 with
      | none => exact bump_files_dry_disk p.lookup r.lookup PATTERNS st
      | some e => exact bump_files_dry_disk p.lookup r.lookup PATTERNS st
  · unfold bump_version_run
    cases hr : get_replacements old M m ms with
    | error e => rfl
    | ok prr =>
      obtain ⟨p, r, nv2⟩ := prr
      dsimp only
      have hsplit : bump_files p.lookup r.lookup true PATTERNS st =
          ((bump_files p.lookup r.lookup true PATTERNS st).1,
           (bump_files p.lookup r.lookup true PATTERNS st).2) := rfl
      rw [hsplit]
      cases herr2 : (bump_files p.lookup r.lookup true PATTERNS st).2 with
      | none => exact hpatchdisk nv2
      | some e => rfl

/-- Witness for C8: a one-file table whose template rewrites `ab` to `X`,
and a changelog that starts with the anchor. -/
theorem dry_run_no_writes_witness :
    (bump_files
        (fun k => if k = "o".toList then some ( "ab".toList) else none)
        (fun k => if k = "n".toList then some ( "X".toList) else none)
        true [("f", ["\x7bo->n\x7d".toList])]
        ⟨[("f", "ab".toList)], []⟩).1.disk = [("f", "ab".toList)] ∧
      (bump_files
        (fun k => if k = "o".toList then some ( "ab".toList) else none)
        (fun k => if k = "n".toList then some ( "X".toList) else none)
        true [("f", ["\x7bo->n\x7d".toList])]
        ⟨[("f", "ab".toList)], []⟩).1.prints =
        [] ++ [("f", ["\x7bo->n\x7d".toList])].map (fun e =>
          (fileBanner e.fst,
           dryFileContent
             (fun k => if k = "o".toList then some ( "ab".toList) else none)
             (fun k => if k = "n".toList then some ( "X".toList) else none)
             [("f", "ab".toList)] e)) ∧
      (patch_changelog (bareVersion 1 3 0) ("2026-10-12".toList) true
        ("These features will be included in the next release:\n\nxyz".toList)).disk =
        "These features will be included in the next release:\n\nxyz".toList ∧
      (patch_changelog (bareVersion 1 3 0) ("2026-10-12".toList) true
        ("These features will be included in the next release:\n\nxyz".toList)).printed =
        some ("######## CHANGES.rst ########",
          (("These features will be included in the next release:\n\nxyz".toList).take
              (0 + changelogAnchor.length) ++
            changelogSection (versionStr (bareVersion 1 3 0) ++
              "_ - ".toList ++ "2026-10-12".toList) ++
            ("These features will be included in the next release:\n\nxyz".toList).drop
              (0 + changelogAnchor.length)).take 200) ∧
      (bump_version_run (bareVersion 1 2 3)
        [(bareVersion 1 3 0, "1"), (bareVersion 2 0 0, "2")]
        ("2026-10-12".toList) true false false
        ⟨[("f", "ab".toList)], []⟩ []).st.disk = [("f", "ab".toList)] ∧
      (bump_version_run (bareVersion 1 2 3)
        [(bareVersion 1 3 0, "1"), (bareVersion 2 0 0, "2")]
        ("2026-10-12".toList) true false false
        ⟨[("f", "ab".toList)], []⟩ []).changes = [] := by
  have h := dry_run_no_writes
    (fun k => if k = "o".toList then some ( "ab".toList) else none)
    (fun k => if k = "n".toList then some ( "X".toList) else none)
    [("f", ["\x7bo->n\x7d".toList])] ⟨[("f", "ab".toList)], []⟩
    (bareVersion 1 3 0) (bareVersion 1 2 3)
    [(bareVersion 1 3 0, "1"), (bareVersion 2 0 0, "2")] false false
    ("2026-10-12".toList)
    ("These features will be included in the next release:\n\nxyz".toList)
  have h2 := dry_run_no_writes
    (fun k => if k = "o".toList then some ( "ab".toList) else none)
    (fun k => if k = "n".toList then some ( "X".toList) else none)
    [("f", ["\x7bo->n\x7d".toList])] ⟨[("f", "ab".toList)], []⟩
    (bareVersion 1 3 0) (bareVersion 1 2 3)
    [(bareVersion 1 3 0, "1"), (bareVersion 2 0 0, "2")] false false
    ("2026-10-12".toList) []
  exact ⟨h.1, h.2.1 (by decide), h.2.2.1, h.2.2.2.1 0 (by decide),
    h2.2.2.2.2.1, h2.2.2.2.2.2⟩

/-- `get_next_milestone_version` raises `RuntimeError` exactly when no key
of the map is strictly greater than the input version. -/
theorem gnmv_error_iff (v : Version) (m : List (Version × String)) :
    get_next_milestone_version v m = Except.error BumpErr.runtimeError ↔
      ∀ u ∈ m.map Prod.fst, ¬ vlt v u := by
  have hperm : List.Perm (List.insertionSort vle (m.map Prod.fst))
      (m.map Prod.fst) :=
    List.perm_insertionSort vle (m.map Prod.fst)
  unfold get_next_milestone_version
  cases hf : (List.insertionSort vle (m.map Prod.fst)).find?
      (fun mv => vltB v mv) with
  | some x =>
    constructor
    · intro h
      exact absurd h (by simp)
    · intro hall
      have hx := List.find?_some hf
      have hmem := hperm.mem_iff.mp (List.mem_of_find?_eq_some hf)
      exact absurd (of_decide_eq_true hx) (hall x hmem)
  | none =>
    constructor
    · intro _ u hu hv
      have := List.find?_eq_none.mp hf u (hperm.mem_iff.mpr hu)
      exact this (decide_eq_true hv)
    · intro _
      rfl

/-- `get_next_milestone_version` either returns a version or raises
`RuntimeError`. -/
theorem gnmv_shape (v : Version) (m : List (Version × String)) :
    (∃ w, get_next_milestone_version v m = Except.ok w) ∨
      get_next_milestone_version v m = Except.error BumpErr.runtimeError := by
  unfold get_next_milestone_version
  cases hf : (List.insertionSort vle (m.map Prod.fst)).find?
      (fun mv => vltB v mv) with
  | some x => exact Or.inl ⟨x, rfl⟩
  | none => exact Or.inr rfl

/-- C9, counterexample: it is not true that every run in which no milestone
title equals the new version raises `KeyError` — with an empty milestone map
(no title equals the new version `1.2.4`), `get_replacements` raises the
earlier `RuntimeError` of `get_next_milestone_version` instead. -/
theorem get_replacements_keyerror_cex :
    (∀ p ∈ ([] : List (Version × String)), ¬ veq p.fst (bareVersion 1 2 4)) ∧
      get_next_version (bareVersion 1 2 3) false false =
        Except.ok (bareVersion 1 2 4) ∧
      get_replacements (bareVersion 1 2 3) false false [] =
        Except.error BumpErr.runtimeError ∧
      get_replacements (bareVersion 1 2 3) false false [] ≠
        Except.error BumpErr.keyError := by
  decide

/-- C9, amended: `get_replacements` succeeds only when the milestone map
contains the computed new version itself as a key; and in every run in which
some milestone is strictly larger than the new version (so the earlier
`RuntimeError` of `get_next_milestone_version` does not fire first) but no
milestone title equals the new version, the lookup
`milestone_numbers[new_version]` raises an uncaught `KeyError` before any
tracked file is rewritten — the run ends with the state unchanged. -/
theorem get_replacements_keyerror (old : Version) (M m : Bool)
    (ms : List (Version × String)) :
    (∀ pr rp nv2, get_replacements old M m ms = Except.ok (pr, rp, nv2) →
      ∃ p ∈ ms, veq p.fst nv2) ∧
    (∀ nv, get_next_version old M m = Except.ok nv →
      (∃ k ∈ ms.map Prod.fst, vlt nv k) →
      (∀ p ∈ ms, ¬ veq p.fst nv) →
      get_replacements old M m ms = Except.error BumpErr.keyError ∧
      ∀ today dry st changes,
        bump_version_run old ms today dry M m st changes =
          ⟨st, changes, none, some BumpErr.keyError⟩) := by
  constructor
  · intro pr rp nv2 h
    unfold get_replacements at h
    split at h
    · exact absurd h (by simp)
    · rename_i nvv hnvv
      split at h
      · exact absurd h (by simp)
      · rename_i nextv hnextv
        split at h
        · exact absurd h (by simp)
        · rename_i nm hnm
          split at h
          · exact absurd h (by simp)
          · rename_i nm2 hnm2
            cases h
            unfold dictLookup at hnm
            cases hfind : ms.find? (fun p => decide (veq p.fst nv2)) with
            | none =>
              rw [hfind] at hnm
              exact absurd hnm (by simp)
            | some q =>
              have hq := List.find?_some hfind
              have hqm := List.mem_of_find?_eq_some hfind
              exact ⟨q, hqm, of_decide_eq_true hq⟩
  · intro nv hnv hlarger hnokey
    have hdl : dictLookup ms nv = none := by
      unfold dictLookup
      rw [List.find?_eq_none.mpr ?_]
      · rfl
      · intro p hp hd
        exact hnokey p hp (of_decide_eq_true hd)
    rcases gnmv_shape nv ms with ⟨w, hw⟩ | herr
    · have hkey : get_replacements old M m ms =
          Except.error BumpErr.keyError := by
        unfold get_replacements
        rw [hnv]
        dsimp only
        rw [hw]
        dsimp only
        rw [hdl]
      refine ⟨hkey, ?_⟩
      intro today dry st changes
      unfold bump_version_run
      rw [hkey]
    · rw [gnmv_error_iff] at herr
      rcases hlarger with ⟨k, hk, hlt⟩
      exact absurd hlt (herr k hk)

/-- Witness for the amended C9: current version `1.2.3`, no flags, one
milestone `9.0.0` (larger than the new version `1.2.4` but not equal to it):
the run fails with `KeyError` and changes nothing. -/
theorem get_replacements_keyerror_witness :
    get_replacements (bareVersion 1 2 3) false false
        [(bareVersion 9 0 0, "7")] = Except.error BumpErr.keyError ∧
      bump_version_run (bareVersion 1 2 3) [(bareVersion 9 0 0, "7")]
        ("2026-10-12".toList) false false false ⟨[], []⟩ [] =
        ⟨⟨[], []⟩, [], none, some BumpErr.keyError⟩ := by
  have h := (get_replacements_keyerror (bareVersion 1 2 3) false false
      [(bareVersion 9 0 0, "7")]).2 (bareVersion 1 2 4) (by decide)
      ⟨bareVersion 9 0 0, by decide⟩ (by decide)
  exact ⟨h.1, h.2 ("2026-10-12".toList) false ⟨[], []⟩ []⟩

/-- C10: whenever `get_next_version` returns a version different from its
input, the result is a bare final release of exactly three components:
epoch 0, no pre-, post-, dev- or local marker (so in particular every such
marker of the input has been discarded), and it is neither a pre-release nor
a development release. -/
theorem get_next_version_bare_when_changed (v : Version) (M m : Bool)
    (w : Version) (h : get_next_version v M m = Except.ok w) (hne : w ≠ v) :
    w.epoch = 0 ∧ (∃ a b c, w.release = [a, b, c]) ∧ w.pre = none ∧
      w.post = none ∧ w.dev = none ∧ w.localSeg = [] ∧
      w.is_prerelease = false ∧ w.is_devrelease = false := by
  unfold get_next_version at h
  split at h
  · split_ifs at h <;>
      first
        | (cases h
           exact ⟨rfl, ⟨_, _, _, rfl⟩, rfl, rfl, rfl, rfl, rfl, rfl⟩)
        | (cases h; exact absurd rfl hne)
  · exact absurd h (by simp)

/-- Witness for C10: bumping `1.2.3rc1` with the minor flag yields the bare
final release `1.3.0`, discarding the pre-release marker. -/
theorem get_next_version_bare_when_changed_witness :
    (bareVersion 1 3 0).epoch = 0 ∧
      (∃ a b c, (bareVersion 1 3 0).release = [a, b, c]) ∧
      (bareVersion 1 3 0).pre = none ∧ (bareVersion 1 3 0).post = none ∧
      (bareVersion 1 3 0).dev = none ∧ (bareVersion 1 3 0).localSeg = [] ∧
      (bareVersion 1 3 0).is_prerelease = false ∧
      (bareVersion 1 3 0).is_devrelease = false :=
  get_next_version_bare_when_changed
    ⟨0, [1, 2, 3], some (2, 1), none, none, []⟩ false true
    (bareVersion 1 3 0) (by decide) (by decide)

